import Mathlib

/-!
Verification of the bottom-band particle-field animator (`water-dots.js`).

The simulation is embedded shallowly over `ℚ`: the script's numeric literals
(`0.92`, `0.06`, …) are exact decimal rationals, and the host's transcendental
primitives (`Math.sin`, `Math.sqrt`, `Math.PI`, `Math.random`) are passed in as
explicit parameters (`MathOps`, a random stream), so every definition is a
computable function and every concrete run can be evaluated by `decide`.
Theorems that depend on analytic facts about the host primitives (for example
`|sin θ| ≤ 1`) take those facts as hypotheses.
-/

namespace WaterDots

/-- The host's numeric primitives: `Math.sin`, `Math.sqrt` and the stored value
of `Math.PI`.  The simulation code calls them pointwise; their analytic
properties (boundedness of `sin`, correctness of `sqrt` on perfect squares)
enter the theorems as explicit hypotheses. -/
structure MathOps where
  sin : ℚ → ℚ
  sqrt : ℚ → ℚ
  pi : ℚ

/-- One particle of the band, mirroring the object literal pushed by
`createParticles`: current position `(x, y)`, velocity `(vx, vy)`, the fixed
anchor `(baseX, baseY)` and the fixed wave phase. -/
structure Particle where
  x : ℚ
  y : ℚ
  vx : ℚ
  vy : ℚ
  baseX : ℚ
  baseY : ℚ
  phase : ℚ
  deriving DecidableEq, Repr

/-- The module-level state read by one invocation of the `step` loop body:
band size (`width`, `height`), `window.innerHeight`, the scaled time
`t = time * 0.0015`, `scrollVelocity`, the `hasRecentInteraction` flag and the
pointer position (`mouse.x`, `mouse.y`). -/
structure SimEnv where
  width : ℚ
  height : ℚ
  innerHeight : ℚ
  t : ℚ
  scrollVelocity : ℚ
  hasRecentInteraction : Bool
  mouseX : ℚ
  mouseY : ℚ
  deriving DecidableEq, Repr

/-- Source constant `DAMPING = 0.92`. -/
def DAMPING : ℚ := 92 / 100

/-- Source constant `MOUSE_INFLUENCE = 90`. -/
def MOUSE_INFLUENCE : ℚ := 90

/-- Source constant `MOUSE_STRENGTH = 0.16`. -/
def MOUSE_STRENGTH : ℚ := 16 / 100

/-- Source constant `CELL_X = 4`. -/
def CELL_X : ℚ := 4

/-- Source constant `CELL_Y = 6`. -/
def CELL_Y : ℚ := 6

/-- Source constant `scale = 0.02` (spatial scale of the noise lattice). -/
def scale : ℚ := 2 / 100

/-- Source constant `eps = 0.001` (finite-difference offset of `curl`). -/
def eps : ℚ := 1 / 1000

/-- Source constant `waveLen = 120`. -/
def waveLen : ℚ := 120

/-- The host primitive `Math.max` on two rationals. -/
def jsMax (a b : ℚ) : ℚ := if a ≤ b then b else a

/-- The host primitive `Math.min` on two rationals. -/
def jsMin (a b : ℚ) : ℚ := if a ≤ b then a else b

/-- The host primitive `Math.abs`. -/
def jsAbs (q : ℚ) : ℚ := if q < 0 then -q else q

/-- Source helper `function smoothstep(a, b, x)`. -/
def smoothstep (a b x : ℚ) : ℚ :=
  let t := jsMax 0 (jsMin 1 ((x - a) / (b - a)))
  t * t * (3 - 2 * t)

/-- Source helper `function lerp(a, b, t)`. -/
def lerp (a b t : ℚ) : ℚ := a + (b - a) * t

/-- Fractional part `s - Math.floor(s)`, as used in `rand2`. -/
def fract (s : ℚ) : ℚ := s - ⌊s⌋

/-- Source helper `function rand2(ix, iy)`: lattice-corner hash
`fract(sin(ix*127.1 + iy*311.7) * 43758.5453)`. -/
def rand2 (ops : MathOps) (ix iy : ℚ) : ℚ :=
  fract (ops.sin (ix * (1271 / 10) + iy * (3117 / 10)) * (437585453 / 10000))

/-- Source helper `function valueNoise(x, y, tm)`: smoothstep-weighted bilinear interpolation
of the four hashed lattice corners around `(x*scale + tm, y*scale + 0.7*tm)`,
rescaled to `[-1, 1]`. -/
def valueNoise (ops : MathOps) (x y tm : ℚ) : ℚ :=
  let nx := x * scale + tm
  let ny := y * scale + tm * (7 / 10)
  let x0 : ℤ := ⌊nx⌋
  let y0 : ℤ := ⌊ny⌋
  let xf := nx - (x0 : ℚ)
  let yf := ny - (y0 : ℚ)
  let u := smoothstep 0 1 xf
  let v := smoothstep 0 1 yf
  let n00 := rand2 ops (x0 : ℚ) (y0 : ℚ)
  let n10 := rand2 ops ((x0 : ℚ) + 1) (y0 : ℚ)
  let n01 := rand2 ops (x0 : ℚ) ((y0 : ℚ) + 1)
  let n11 := rand2 ops ((x0 : ℚ) + 1) ((y0 : ℚ) + 1)
  let nx0 := lerp n00 n10 u
  let nx1 := lerp n01 n11 u
  lerp nx0 nx1 v * 2 - 1

/-- Source helper `function curl(x, y, tm)`, exactly as written: `n1, n2` sample the
noise at `y ± eps`, `n3, n4` at `x ± eps`; the source stores `(n1-n2)/(2*eps)`
in a variable named `dx` and `(n3-n4)/(2*eps)` in one named `dy`, and returns
`{x: dy, y: -dx}`. -/
def curl (ops : MathOps) (x y tm : ℚ) : ℚ × ℚ :=
  ((valueNoise ops (x + eps) y tm - valueNoise ops (x - eps) y tm) / (2 * eps),
   -((valueNoise ops x (y + eps) tm - valueNoise ops x (y - eps) tm) / (2 * eps)))

/-- Modelled from the spec: "compute gradient via central difference, then
rotate it 90° (`(dy, -dx)`)" — the gradient `(dx, dy)` taken along x and y
respectively and then rotated, i.e. the field `(∂N/∂y, -∂N/∂x)`.  This is the
construction the spec (and the source's own comment) describes; it is compared
against the source's `curl` above. -/
def specCurl (ops : MathOps) (x y tm : ℚ) : ℚ × ℚ :=
  ((valueNoise ops x (y + eps) tm - valueNoise ops x (y - eps) tm) / (2 * eps),
   -((valueNoise ops (x + eps) y tm - valueNoise ops (x - eps) y tm) / (2 * eps)))

/-- Central finite-difference estimate of the divergence `∂Fx/∂x + ∂Fy/∂y` of a
2D field `F` at `(x, y)` with step `h` — the estimator named by the spec's
testable property "finite-difference divergence ≈ 0 within tolerance". -/
def fdDivergence (F : ℚ → ℚ → ℚ × ℚ) (h x y : ℚ) : ℚ :=
  ((F (x + h) y).1 - (F (x - h) y).1) / (2 * h) +
    ((F x (y + h)).2 - (F x (y - h)).2) / (2 * h)

/-- Wave amplitude `scrollAbs > 0.2 ? Math.min(14, scrollAbs * 0.5 + 2) : 0`. -/
def waveAmp (sv : ℚ) : ℚ :=
  if 2 / 10 < jsAbs sv then jsMin 14 (jsAbs sv * (5 / 10) + 2) else 0

/-- Wave target `targetY = p.baseY + (waveAmp === 0 ? 0
      : Math.sin((p.x + t * 140) / waveLen + p.phase) * waveAmp)`. -/
def targetY (ops : MathOps) (env : SimEnv) (p : Particle) : ℚ :=
  p.baseY +
    (if waveAmp env.scrollVelocity = 0 then 0
     else ops.sin ((p.x + env.t * 140) / waveLen + p.phase) * waveAmp env.scrollVelocity)

/-- Branch 1, the wave-settle spring: `const ay1 = (targetY - p.y) * 0.06`. -/
def ay1 (ops : MathOps) (env : SimEnv) (p : Particle) : ℚ :=
  (targetY ops env p - p.y) * (6 / 100)

/-- Gate of branch 2 (flow advection):
`scrollAbs > 0.2 || hasRecentInteraction`. -/
def advectCond (env : SimEnv) : Bool :=
  decide ((2 : ℚ) / 10 < jsAbs env.scrollVelocity) || env.hasRecentInteraction

/-- Gate of branch 3 (idle restore):
`scrollAbs <= 0.2 && !hasRecentInteraction`. -/
def restoreCond (env : SimEnv) : Bool :=
  decide (jsAbs env.scrollVelocity ≤ (2 : ℚ) / 10) && !env.hasRecentInteraction

/-- The host primitive `Math.sign`. -/
def sign (q : ℚ) : ℚ := if 0 < q then 1 else if q < 0 then -1 else 0

/-- Flow gain `flowScale = Math.min(3, 0.6 + scrollAbs * 0.12)`. -/
def flowScale (sv : ℚ) : ℚ := jsMin 3 (6 / 10 + jsAbs sv * (12 / 100))

/-- Branch 2 body: sample the curl field at
`tm = t * (1 + scrollAbs * 0.4)` and bias it against the scroll direction:
`ax += (f.x - Math.sign(scrollVelocity) * Math.abs(f.x)) * flowScale;
 ay2 += f.y * (flowScale * 0.6)`. -/
def advectAccel (ops : MathOps) (env : SimEnv) (p : Particle) : ℚ × ℚ :=
  let tm := env.t * (1 + jsAbs env.scrollVelocity * (4 / 10))
  let f := curl ops p.x p.y tm
  let fs := flowScale env.scrollVelocity
  ((f.1 - sign env.scrollVelocity * jsAbs f.1) * fs, f.2 * (fs * (6 / 10)))

/-- Branch 3 body: `ax += -(p.x - p.baseX) * 0.08; ay2 += -(p.y - p.baseY) * 0.06`. -/
def restoreAccel (p : Particle) : ℚ × ℚ :=
  (-(p.x - p.baseX) * (8 / 100), -(p.y - p.baseY) * (6 / 100))

/-- The accumulated `(ax, ay2)` pair: starts at `(0, 0)`, gains the advection
contribution when `advectCond` holds and the restore contribution when
`restoreCond` holds (the source uses two separate `if` statements). -/
def axAy2 (ops : MathOps) (env : SimEnv) (p : Particle) : ℚ × ℚ :=
  let a := if advectCond env then advectAccel ops env p else (0, 0)
  let b := if restoreCond env then restoreAccel p else (0, 0)
  (a.1 + b.1, a.2 + b.2)

/-- Squared screen-space distance from the particle to the pointer:
`cy = window.innerHeight - height + p.y; dx = p.x - mouse.x; dy = cy - mouse.y;
 dist2 = dx*dx + dy*dy`. -/
def mouseDistSq (env : SimEnv) (p : Particle) : ℚ :=
  (p.x - env.mouseX) * (p.x - env.mouseX) +
    (env.innerHeight - env.height + p.y - env.mouseY) *
      (env.innerHeight - env.height + p.y - env.mouseY)

/-- Branch 4, the pointer-repulsion velocity kick: zero outside the 90 px
influence radius, otherwise `(dx/dist, dy/dist) * strength * 6` with
`dist = Math.max(8, Math.sqrt(dist2))` and
`strength = (1 - dist / 90) * 0.16`. -/
def kick (ops : MathOps) (env : SimEnv) (p : Particle) : ℚ × ℚ :=
  let dx := p.x - env.mouseX
  let dy := env.innerHeight - env.height + p.y - env.mouseY
  let dist2 := dx * dx + dy * dy
  if dist2 < MOUSE_INFLUENCE * MOUSE_INFLUENCE then
    let dist := jsMax 8 (ops.sqrt dist2)
    let strength := (1 - dist / MOUSE_INFLUENCE) * MOUSE_STRENGTH
    (dx / dist * strength * 6, dy / dist * strength * 6)
  else (0, 0)

/-- The soft-bounds reflection applied to one axis at the end of the step:
`if (x < 0) { x = 0; vx *= -0.5; } if (x > w) { x = w; vx *= -0.5; }`
(two sequential `if`s, as in the source). -/
def clampReflect (w x v : ℚ) : ℚ × ℚ :=
  let x2 := if x < 0 then (0 : ℚ) else x
  let v2 := if x < 0 then v * (-(1 / 2)) else v
  (if w < x2 then w else x2, if w < x2 then v2 * (-(1 / 2)) else v2)

/-- One execution of the per-particle body of `step`, in source order:
wave spring into `vy` (damped), advect/restore acceleration into `vx`/`vy`
(damped), pointer kick added directly to the velocity, position integration,
a further damping pass, then the boundary reflection. -/
def step (ops : MathOps) (env : SimEnv) (p : Particle) : Particle :=
  let vyA := (p.vy + ay1 ops env p) * DAMPING
  let a := axAy2 ops env p
  let vxA := (p.vx + a.1) * DAMPING
  let vyB := (vyA + a.2) * DAMPING
  let k := kick ops env p
  let vxB := vxA + k.1
  let vyC := vyB + k.2
  let x1 := p.x + vxB
  let y1 := p.y + vyC
  let vxC := vxB * DAMPING
  let vyD := vyC * DAMPING
  let xr := clampReflect env.width x1 vxC
  let yr := clampReflect env.height y1 vyD
  { x := xr.1, y := yr.1, vx := xr.2, vy := yr.2,
    baseX := p.baseX, baseY := p.baseY, phase := p.phase }

/-- Iterate the per-particle step under a (possibly frame-varying) sequence of
environments: `runSteps envs (n+1) p = step (envs n) (runSteps envs n p)`. -/
def runSteps (ops : MathOps) (envs : ℕ → SimEnv) : ℕ → Particle → Particle
  | 0, p => p
  | n + 1, p => step ops (envs n) (runSteps ops envs n p)

/-- The particle pushed for grid cell `(cx, ry)` by `createParticles`:
`x = cx * CELL_X + (Math.random() - 0.5) * 1.5` (and likewise for `y`),
`baseX = x`, `baseY = y`, `phase = Math.random() * Math.PI * 2`.  The random
stream `rnd` is indexed by draw order: three draws per particle. -/
def mkParticle (ops : MathOps) (rnd : ℕ → ℚ) (cols ry cx : ℕ) : Particle :=
  let k := 3 * (ry * cols + cx)
  let x := (cx : ℚ) * CELL_X + (rnd k - 5 / 10) * (15 / 10)
  let y := (ry : ℚ) * CELL_Y + (rnd (k + 1) - 5 / 10) * (15 / 10)
  { x := x, y := y, vx := 0, vy := 0, baseX := x, baseY := y,
    phase := rnd (k + 2) * ops.pi * 2 }

/-- Source function `createParticles()`: `cols = Math.ceil(width / CELL_X)`,
`rows = Math.ceil(height / CELL_Y)`, one particle per `(ry, cx)` with
`0 ≤ ry < rows`, `0 ≤ cx < cols` (a nonpositive bound yields no iterations,
exactly like the JS `for` loop). -/
def createParticles (ops : MathOps) (rnd : ℕ → ℚ) (width height : ℚ) :
    List Particle :=
  let cols := (⌈width / CELL_X⌉ : ℤ).toNat
  let rows := (⌈height / CELL_Y⌉ : ℤ).toNat
  (List.range rows).flatMap fun ry =>
    (List.range cols).map fun cx => mkParticle ops rnd cols ry cx

/-- The module-level mutable state touched by the event handlers and the frame
loop: the particle array, the band geometry, `lastScrollY`, `scrollVelocity`,
the pointer position and the `hasRecentInteraction` flag. -/
structure SimState where
  particles : List Particle
  width : ℚ
  height : ℚ
  innerHeight : ℚ
  lastScrollY : ℚ
  scrollVelocity : ℚ
  mouseX : ℚ
  mouseY : ℚ
  hasRecentInteraction : Bool

/-- The asynchronous inputs of the simulation: a scroll event carrying the new
`pageYOffset`, the 180 ms debounce timer firing (which clears
`hasRecentInteraction`), a mouse move, a touch move (whose payload is absent
when `e.touches[0]` is missing), and one animation frame carrying the raw
timestamp. -/
inductive Ev where
  | scroll (pageY : ℚ)
  | interactionTimeout
  | mouseMove (x y : ℚ)
  | touchMove (touch : Option (ℚ × ℚ))
  | frame (time : ℚ)

/-- The per-frame environment assembled from the module state and the frame
timestamp (`const t = (time || 0) * 0.0015`). -/
def envOf (s : SimState) (time : ℚ) : SimEnv :=
  { width := s.width, height := s.height, innerHeight := s.innerHeight,
    t := time * (15 / 10000), scrollVelocity := s.scrollVelocity,
    hasRecentInteraction := s.hasRecentInteraction,
    mouseX := s.mouseX, mouseY := s.mouseY }

/-- Effect of one event on the module state, mirroring `onScroll`,
`onMouseMove`, `onTouchMove` and the frame body of `step` (which maps the
particle array through the per-particle step and then decays
`scrollVelocity *= 0.9`).  Note `onTouchMove` updates only the pointer
position — it does not touch `hasRecentInteraction`. -/
def applyEv (ops : MathOps) (s : SimState) : Ev → SimState
  | .scroll pageY =>
      { s with scrollVelocity := pageY - s.lastScrollY, lastScrollY := pageY,
               hasRecentInteraction := true }
  | .interactionTimeout => { s with hasRecentInteraction := false }
  | .mouseMove mx my =>
      { s with mouseX := mx, mouseY := my, hasRecentInteraction := true }
  | .touchMove none => s
  | .touchMove (some tp) => { s with mouseX := tp.1, mouseY := tp.2 }
  | .frame time =>
      { s with particles := s.particles.map (step ops (envOf s time)),
               scrollVelocity := s.scrollVelocity * (9 / 10) }

/-- Fold a list of events over the state. -/
def applyEvs (ops : MathOps) (s : SimState) (evs : List Ev) : SimState :=
  evs.foldl (applyEv ops) s

/-- The creation-time anchor data of a particle: `(baseX, baseY, phase)`. -/
def anchor (p : Particle) : ℚ × ℚ × ℚ := (p.baseX, p.baseY, p.phase)

/-- Modelled from the claim, for refinement comparison with `step`: the
vertical velocity that one step would produce if — as claim C3 reads the
integrator — the damping constant were applied to `vy` exactly twice: once
when the single composed acceleration `ay1 + ay2` is added, and once after
position integration, with the pointer kick between the two passes. -/
def claimedTwiceDampedVy (ops : MathOps) (env : SimEnv) (p : Particle) : ℚ :=
  ((p.vy + (ay1 ops env p + (axAy2 ops env p).2)) * DAMPING
      + (kick ops env p).2) * DAMPING

/-- The horizontal velocity `step` produces before the boundary reflection:
`vx` is damped exactly twice — once when `ax` is added, once after position
integration — with the pointer kick added between the two passes. -/
def vxNoClamp (ops : MathOps) (env : SimEnv) (p : Particle) : ℚ :=
  ((p.vx + (axAy2 ops env p).1) * DAMPING + (kick ops env p).1) * DAMPING

/-- The vertical velocity `step` produces before the boundary reflection:
`vy` is damped three times — once when the wave acceleration `ay1` is added,
once when the advect/restore acceleration `ay2` is added, and once after
position integration — with the pointer kick added between the second and
third passes. -/
def vyNoClamp (ops : MathOps) (env : SimEnv) (p : Particle) : ℚ :=
  (((p.vy + ay1 ops env p) * DAMPING + (axAy2 ops env p).2) * DAMPING
      + (kick ops env p).2) * DAMPING

/-- The x position `step` integrates before the boundary reflection. -/
def xNoClamp (ops : MathOps) (env : SimEnv) (p : Particle) : ℚ :=
  p.x + ((p.vx + (axAy2 ops env p).1) * DAMPING + (kick ops env p).1)

/-- The y position `step` integrates before the boundary reflection. -/
def yNoClamp (ops : MathOps) (env : SimEnv) (p : Particle) : ℚ :=
  p.y + (((p.vy + ay1 ops env p) * DAMPING + (axAy2 ops env p).2) * DAMPING
      + (kick ops env p).2)

/-- Concrete stand-in for the host primitives with `sin` the identity map:
used to evaluate the hash pipeline on explicit inputs. -/
def hashOps : MathOps := { sin := fun q => q, sqrt := fun q => q, pi := 0 }

/-- Host primitives that return `0` everywhere (they satisfy `|sin θ| ≤ 1`);
used for concrete runs in which the transcendental branches are inactive. -/
def zeroOps : MathOps := { sin := fun _ => 0, sqrt := fun _ => 0, pi := 0 }

/-- Host primitives whose `sqrt` is exact on the one perfect square a concrete
repulsion run needs (`sqrt 100 = 10`, as IEEE `Math.sqrt` also returns). -/
def sqrtOps : MathOps :=
  { sin := fun _ => 0, sqrt := fun q => if q = 100 then 10 else 0, pi := 0 }

/-- A concrete idle environment: band `800 × 96`, `window.innerHeight = 900`,
no scroll, no recent interaction, pointer at its `(-9999, -9999)` default. -/
def envIdle : SimEnv :=
  { width := 800, height := 96, innerHeight := 900, t := 0, scrollVelocity := 0,
    hasRecentInteraction := false, mouseX := -9999, mouseY := -9999 }

/-- A concrete particle displaced one pixel above its anchor
(`y = 1`, `baseY = 0`), used to exercise the idle-restore spring. -/
def pSpring : Particle :=
  { x := 1, y := 1, vx := 0, vy := 0, baseX := 1, baseY := 0, phase := 0 }

/-- Environment for the concrete repulsion scenario: pointer at the origin of
screen space, particle band at the bottom of a 100 px window. -/
def envRepel : SimEnv :=
  { width := 800, height := 96, innerHeight := 100, t := 0, scrollVelocity := 0,
    hasRecentInteraction := false, mouseX := 0, mouseY := 0 }

/-- Particle at screen-space distance exactly 10 px from `envRepel`'s pointer
(`dx = 6`, `dy = 100 - 96 + 4 - 0 = 8`). -/
def pRepel : Particle :=
  { x := 6, y := 4, vx := 0, vy := 0, baseX := 6, baseY := 4, phase := 0 }

/-- A concrete environment with scroll velocity held at 10. -/
def envScroll10 : SimEnv :=
  { width := 800, height := 96, innerHeight := 900, t := 0, scrollVelocity := 10,
    hasRecentInteraction := false, mouseX := -9999, mouseY := -9999 }

/-- A concrete module state used to exercise the event handlers. -/
def stateA : SimState :=
  { particles := [pSpring], width := 800, height := 96, innerHeight := 900,
    lastScrollY := 0, scrollVelocity := 0, mouseX := -9999, mouseY := -9999,
    hasRecentInteraction := false }

/-- Quadratic energy for the idle horizontal dynamics (single restore spring). -/
def idleEx (d v : ℚ) : ℚ := d * d + 14 * (v * v)

/-- Quadratic energy for the idle vertical dynamics (wave-settle spring plus
restore spring, each with its own damping pass). -/
def idleEy (d v : ℚ) : ℚ := d * d + 9 * (v * v)

/-- Total idle energy of a particle relative to its anchor. -/
def idleE (q : Particle) : ℚ :=
  idleEx (q.x - q.baseX) q.vx + idleEy (q.y - q.baseY) q.vy

/-- A particle displaced 10 px horizontally from its in-band anchor, at rest:
the state an idle settle starts from after some prior activity. -/
def pDisplaced : Particle :=
  { x := 11, y := 48, vx := 0, vy := 0, baseX := 1, baseY := 48, phase := 0 }

/-- The function `step` is the no-clamp update followed by the two per-axis reflections. -/
theorem step_eq (ops : MathOps) (env : SimEnv) (p : Particle) :
    step ops env p =
      { x := (clampReflect env.width (xNoClamp ops env p) (vxNoClamp ops env p)).1,
        y := (clampReflect env.height (yNoClamp ops env p) (vyNoClamp ops env p)).1,
        vx := (clampReflect env.width (xNoClamp ops env p) (vxNoClamp ops env p)).2,
        vy := (clampReflect env.height (yNoClamp ops env p) (vyNoClamp ops env p)).2,
        baseX := p.baseX, baseY := p.baseY, phase := p.phase } := rfl

/-- The two sequential reflections land the coordinate inside `[0, w]`. -/
theorem clampReflect_bounds (w x v : ℚ) (hw : 0 ≤ w) :
    0 ≤ (clampReflect w x v).1 ∧ (clampReflect w x v).1 ≤ w := by
  simp only [clampReflect]
  split_ifs with h1 h2 h3 <;> constructor <;> linarith

/-- If the integrated coordinate is already inside `[0, w]`, the reflection
changes nothing. -/
theorem clampReflect_id (w x v : ℚ) (h0 : 0 ≤ x) (hw : x ≤ w) :
    clampReflect w x v = (x, v) := by
  simp only [clampReflect]
  rw [if_neg (not_lt.2 h0), if_neg (not_lt.2 h0), if_neg (not_lt.2 hw),
    if_neg (not_lt.2 hw)]

/-- The idle horizontal update — restore spring, double damping — contracts
the horizontal energy by at least the factor 0.93 per step. -/
theorem idleEx_step (d v : ℚ) :
    idleEx (d + (v + -d * (8/100)) * DAMPING)
      ((v + -d * (8/100)) * DAMPING * DAMPING) ≤ (93/100) * idleEx d v := by
  simp only [idleEx, DAMPING]
  nlinarith [sq_nonneg (d - 7 * v), sq_nonneg d, sq_nonneg v]

/-- The idle vertical update — wave-settle spring, restore spring, triple
damping — contracts the vertical energy by at least the factor 0.93 per step. -/
theorem idleEy_step (d v : ℚ) :
    idleEy (d + ((v + -d * (6/100)) * DAMPING + -d * (6/100)) * DAMPING)
      (((v + -d * (6/100)) * DAMPING + -d * (6/100)) * DAMPING * DAMPING)
      ≤ (93/100) * idleEy d v := by
  simp only [idleEy, DAMPING]
  nlinarith [sq_nonneg (d - 2 * v), sq_nonneg d, sq_nonneg v]

/-- For an anchor inside `[0, w]` the boundary reflection moves the
coordinate toward the anchor and shrinks the velocity: both squared
components are non-increasing. -/
theorem clampReflect_E_le (w x v B : ℚ) (hB0 : 0 ≤ B) (hBw : B ≤ w) :
    ((clampReflect w x v).1 - B) * ((clampReflect w x v).1 - B)
        ≤ (x - B) * (x - B) ∧
      (clampReflect w x v).2 * (clampReflect w x v).2 ≤ v * v := by
  simp only [clampReflect]
  split_ifs with h1 h2 h3
  · exact absurd h2 (not_lt.2 (hB0.trans hBw))
  · constructor
    · nlinarith [mul_pos (by linarith : (0:ℚ) < -x)
        (by linarith : (0:ℚ) < 2 * B - x)]
    · nlinarith [sq_nonneg v]
  · constructor
    · nlinarith [mul_nonneg (by linarith : (0:ℚ) ≤ x - w)
        (by linarith : (0:ℚ) ≤ x + w - 2 * B)]
    · nlinarith [sq_nonneg v]
  · exact ⟨le_refl _, le_refl _⟩

set_option maxHeartbeats 1600000 in
/-- One idle step — zero scroll, no interaction window, pointer out of
reach, anchor inside the band — contracts the total idle energy by at least
the factor 0.93. -/
theorem idle_step_E (ops : MathOps) (env : SimEnv) (q : Particle)
    (h1 : env.scrollVelocity = 0) (h2 : env.hasRecentInteraction = false)
    (hbx : 0 ≤ q.baseX ∧ q.baseX ≤ env.width)
    (hby : 0 ≤ q.baseY ∧ q.baseY ≤ env.height)
    (hfar : MOUSE_INFLUENCE * MOUSE_INFLUENCE ≤ mouseDistSq env q) :
    idleE (step ops env q) ≤ (93/100) * idleE q := by
  have hwa : waveAmp env.scrollVelocity = 0 := by
    rw [h1]; norm_num [waveAmp, jsAbs]
  have hty : targetY ops env q = q.baseY := by
    rw [targetY, hwa]; simp
  have hay1 : ay1 ops env q = -(q.y - q.baseY) * (6/100) := by
    rw [ay1, hty]; ring
  have hadv : advectCond env = false := by
    rw [advectCond, h1, h2]; norm_num [jsAbs]
  have hres : restoreCond env = true := by
    rw [restoreCond, h1, h2]; norm_num [jsAbs]
  have haxy : axAy2 ops env q
      = (-(q.x - q.baseX) * (8/100), -(q.y - q.baseY) * (6/100)) := by
    rw [axAy2, hadv, hres]; simp [restoreAccel]
  have ha1 : (axAy2 ops env q).1 = -(q.x - q.baseX) * (8/100) := by rw [haxy]
  have ha2 : (axAy2 ops env q).2 = -(q.y - q.baseY) * (6/100) := by rw [haxy]
  have hfar' : ¬((q.x - env.mouseX) * (q.x - env.mouseX) +
      (env.innerHeight - env.height + q.y - env.mouseY) *
        (env.innerHeight - env.height + q.y - env.mouseY)
      < MOUSE_INFLUENCE * MOUSE_INFLUENCE) := by
    simp only [mouseDistSq] at hfar
    exact not_lt.2 hfar
  have hk : kick ops env q = (0, 0) := by
    rw [kick, if_neg hfar']
  have hk1 : (kick ops env q).1 = 0 := by rw [hk]
  have hk2 : (kick ops env q).2 = 0 := by rw [hk]
  have hxe : xNoClamp ops env q
      = (q.x - q.baseX) + (q.vx + -(q.x - q.baseX) * (8/100)) * DAMPING
        + q.baseX := by
    rw [xNoClamp, ha1, hk1]; ring
  have hvxe : vxNoClamp ops env q
      = (q.vx + -(q.x - q.baseX) * (8/100)) * DAMPING * DAMPING := by
    rw [vxNoClamp, ha1, hk1]; ring
  have hye : yNoClamp ops env q
      = (q.y - q.baseY) + ((q.vy + -(q.y - q.baseY) * (6/100)) * DAMPING
          + -(q.y - q.baseY) * (6/100)) * DAMPING + q.baseY := by
    rw [yNoClamp, hay1, ha2, hk2]; ring
  have hvye : vyNoClamp ops env q
      = ((q.vy + -(q.y - q.baseY) * (6/100)) * DAMPING
          + -(q.y - q.baseY) * (6/100)) * DAMPING * DAMPING := by
    rw [vyNoClamp, hay1, ha2, hk2]; ring
  have hsx : (step ops env q).x
      = (clampReflect env.width
          ((q.x - q.baseX) + (q.vx + -(q.x - q.baseX) * (8/100)) * DAMPING
            + q.baseX)
          ((q.vx + -(q.x - q.baseX) * (8/100)) * DAMPING * DAMPING)).1 := by
    rw [show (step ops env q).x
        = (clampReflect env.width (xNoClamp ops env q) (vxNoClamp ops env q)).1
      from rfl, hxe, hvxe]
  have hsvx : (step ops env q).vx
      = (clampReflect env.width
          ((q.x - q.baseX) + (q.vx + -(q.x - q.baseX) * (8/100)) * DAMPING
            + q.baseX)
          ((q.vx + -(q.x - q.baseX) * (8/100)) * DAMPING * DAMPING)).2 := by
    rw [show (step ops env q).vx
        = (clampReflect env.width (xNoClamp ops env q) (vxNoClamp ops env q)).2
      from rfl, hxe, hvxe]
  have hsy : (step ops env q).y
      = (clampReflect env.height
          ((q.y - q.baseY) + ((q.vy + -(q.y - q.baseY) * (6/100)) * DAMPING
              + -(q.y - q.baseY) * (6/100)) * DAMPING + q.baseY)
          (((q.vy + -(q.y - q.baseY) * (6/100)) * DAMPING
              + -(q.y - q.baseY) * (6/100)) * DAMPING * DAMPING)).1 := by
    rw [show (step ops env q).y
        = (clampReflect env.height (yNoClamp ops env q) (vyNoClamp ops env q)).1
      from rfl, hye, hvye]
  have hsvy : (step ops env q).vy
      = (clampReflect env.height
          ((q.y - q.baseY) + ((q.vy + -(q.y - q.baseY) * (6/100)) * DAMPING
              + -(q.y - q.baseY) * (6/100)) * DAMPING + q.baseY)
          (((q.vy + -(q.y - q.baseY) * (6/100)) * DAMPING
              + -(q.y - q.baseY) * (6/100)) * DAMPING * DAMPING)).2 := by
    rw [show (step ops env q).vy
        = (clampReflect env.height (yNoClamp ops env q) (vyNoClamp ops env q)).2
      from rfl, hye, hvye]
  have hsbx : (step ops env q).baseX = q.baseX := rfl
  have hsby : (step ops env q).baseY = q.baseY := rfl
  obtain ⟨hcx1, hcx2⟩ := clampReflect_E_le env.width
    ((q.x - q.baseX) + (q.vx + -(q.x - q.baseX) * (8/100)) * DAMPING + q.baseX)
    ((q.vx + -(q.x - q.baseX) * (8/100)) * DAMPING * DAMPING)
    q.baseX hbx.1 hbx.2
  obtain ⟨hcy1, hcy2⟩ := clampReflect_E_le env.height
    ((q.y - q.baseY) + ((q.vy + -(q.y - q.baseY) * (6/100)) * DAMPING
        + -(q.y - q.baseY) * (6/100)) * DAMPING + q.baseY)
    (((q.vy + -(q.y - q.baseY) * (6/100)) * DAMPING
        + -(q.y - q.baseY) * (6/100)) * DAMPING * DAMPING)
    q.baseY hby.1 hby.2
  have hex := idleEx_step (q.x - q.baseX) q.vx
  have hey := idleEy_step (q.y - q.baseY) q.vy
  simp only [idleE, idleEx, idleEy] at hex hey ⊢
  rw [hsx, hsvx, hsy, hsvy, hsbx, hsby]
  nlinarith [hcx1, hcx2, hcy1, hcy2, hex, hey]

/-- One step keeps the particle inside the band rectangle. -/
theorem step_mem_band (ops : MathOps) (env : SimEnv) (p : Particle)
    (hw : 0 ≤ env.width) (hh : 0 ≤ env.height) :
    0 ≤ (step ops env p).x ∧ (step ops env p).x ≤ env.width ∧
      0 ≤ (step ops env p).y ∧ (step ops env p).y ≤ env.height := by
  rw [step_eq]
  obtain ⟨hx0, hx1⟩ :=
    clampReflect_bounds env.width (xNoClamp ops env p) (vxNoClamp ops env p) hw
  obtain ⟨hy0, hy1⟩ :=
    clampReflect_bounds env.height (yNoClamp ops env p) (vyNoClamp ops env p) hh
  exact ⟨hx0, hx1, hy0, hy1⟩

/-- C1.  Boundary invariant: for every particle, every force/velocity
magnitude and every positive number of simulation steps under any sequence of
environments with nonnegative band dimensions, the position after each step
lies in `[0, width] × [0, height]` for the band of the step just completed —
the end-of-step reflections re-establish the bounds unconditionally. -/
theorem boundary_invariant (ops : MathOps) (envs : ℕ → SimEnv) (p : Particle)
    (hw : ∀ k, 0 ≤ (envs k).width) (hh : ∀ k, 0 ≤ (envs k).height) (m : ℕ) :
    0 ≤ (runSteps ops envs (m + 1) p).x ∧
      (runSteps ops envs (m + 1) p).x ≤ (envs m).width ∧
      0 ≤ (runSteps ops envs (m + 1) p).y ∧
      (runSteps ops envs (m + 1) p).y ≤ (envs m).height := by
  have h := step_mem_band ops (envs m) (runSteps ops envs m p) (hw m) (hh m)
  exact h

/-- Witness for C1: a concrete particle launched upward with a large velocity
is back inside the `800 × 96` band right after the first step. -/
theorem boundary_invariant_witness :
    (∀ k : ℕ, 0 ≤ ((fun _ => envIdle) k : SimEnv).width) ∧
      (∀ k : ℕ, 0 ≤ ((fun _ => envIdle) k : SimEnv).height) ∧
      (0 ≤ (runSteps zeroOps (fun _ => envIdle) 1 pSpring).x ∧
        (runSteps zeroOps (fun _ => envIdle) 1 pSpring).x ≤ envIdle.width ∧
        0 ≤ (runSteps zeroOps (fun _ => envIdle) 1 pSpring).y ∧
        (runSteps zeroOps (fun _ => envIdle) 1 pSpring).y ≤ envIdle.height) :=
  ⟨fun _ => by norm_num [envIdle], fun _ => by norm_num [envIdle],
    boundary_invariant zeroOps (fun _ => envIdle) pSpring
      (fun _ => by norm_num [envIdle]) (fun _ => by norm_num [envIdle]) 0⟩

/-- C5.  Branch exclusivity: the flow-advection gate and the idle-restore gate
are exact complements — in every step exactly one of branches 2 and 3 fires —
and the pointer-repulsion branch is evaluated from the particle/pointer
geometry alone, unconditionally on the scroll/interaction mode. -/
theorem branch_exclusivity :
    (∀ env : SimEnv, advectCond env = !restoreCond env) ∧
      (∀ (ops : MathOps) (e1 e2 : SimEnv) (p : Particle),
        e1.mouseX = e2.mouseX → e1.mouseY = e2.mouseY →
        e1.innerHeight = e2.innerHeight → e1.height = e2.height →
        kick ops e1 p = kick ops e2 p) := by
  constructor
  · intro env
    by_cases h : (2 : ℚ) / 10 < jsAbs env.scrollVelocity
    · simp [advectCond, restoreCond, h, not_le.2 h]
    · simp [advectCond, restoreCond, h, not_lt.1 h]
  · intro ops e1 e2 p h1 h2 h3 h4
    simp only [kick, h1, h2, h3, h4]

/-- Witness for C5: two environments that differ only in scroll velocity and
interaction mode produce the same pointer-repulsion kick. -/
theorem branch_exclusivity_witness :
    envIdle.mouseX = envScroll10.mouseX ∧ envIdle.mouseY = envScroll10.mouseY ∧
      envIdle.innerHeight = envScroll10.innerHeight ∧
      envIdle.height = envScroll10.height ∧
      kick zeroOps envIdle pSpring = kick zeroOps envScroll10 pSpring :=
  ⟨rfl, rfl, rfl, rfl,
    branch_exclusivity.2 zeroOps envIdle envScroll10 pSpring rfl rfl rfl rfl⟩

/-- The function `step` never writes the anchor fields. -/
theorem anchor_step (ops : MathOps) (env : SimEnv) (p : Particle) :
    anchor (step ops env p) = anchor p := rfl

/-- C9.  Anchor immutability: over any sequence of scroll events, debounce
timeouts, mouse moves, touch moves and animation frames, every particle keeps
its creation-time `(baseX, baseY, phase)` (and the particle count is
unchanged) — only `position` and `velocity` evolve; the model has no
re-layout event, matching the claim's scope. -/
theorem anchors_immutable (ops : MathOps) (evs : List Ev) (s : SimState) :
    ((applyEvs ops s evs).particles).map anchor = (s.particles).map anchor := by
  induction evs generalizing s with
  | nil => rfl
  | cons e t ih =>
    have hstep : applyEvs ops s (e :: t) = applyEvs ops (applyEv ops s e) t := rfl
    rw [hstep, ih]
    cases e with
    | scroll pageY => rfl
    | interactionTimeout => rfl
    | mouseMove mx my => rfl
    | touchMove o => cases o <;> rfl
    | frame time =>
      simp [applyEv, List.map_map, Function.comp_def, anchor_step]

/-- C10.  Touch moves do not open the interaction window: a touch-move event
updates the pointer position but leaves `hasRecentInteraction` and
`scrollVelocity` unchanged (unlike a mouse move, which raises the flag), so
any run of touch moves from an idle state keeps the flow-advection gate off
and the idle-restore gate on. -/
theorem touch_no_interaction (ops : MathOps) (s : SimState)
    (ts : List (Option (ℚ × ℚ))) (time : ℚ)
    (hsv : jsAbs s.scrollVelocity ≤ 2 / 10) (hfl : s.hasRecentInteraction = false) :
    (applyEvs ops s (ts.map Ev.touchMove)).scrollVelocity = s.scrollVelocity ∧
      (applyEvs ops s (ts.map Ev.touchMove)).hasRecentInteraction = false ∧
      advectCond (envOf (applyEvs ops s (ts.map Ev.touchMove)) time) = false ∧
      restoreCond (envOf (applyEvs ops s (ts.map Ev.touchMove)) time) = true ∧
      (∀ mx my : ℚ,
        (applyEv ops s (Ev.touchMove (some (mx, my)))).mouseX = mx ∧
        (applyEv ops s (Ev.touchMove (some (mx, my)))).mouseY = my ∧
        (applyEv ops s (Ev.touchMove (some (mx, my)))).hasRecentInteraction
          = s.hasRecentInteraction) ∧
      (∀ mx my : ℚ, (applyEv ops s (Ev.mouseMove mx my)).hasRecentInteraction
          = true) := by
  have keep : ∀ (ts' : List (Option (ℚ × ℚ))) (s' : SimState),
      (applyEvs ops s' (ts'.map Ev.touchMove)).scrollVelocity = s'.scrollVelocity ∧
      (applyEvs ops s' (ts'.map Ev.touchMove)).hasRecentInteraction
        = s'.hasRecentInteraction := by
    intro ts'
    induction ts' with
    | nil => intro s'; exact ⟨rfl, rfl⟩
    | cons o t ih =>
      intro s'
      have hcons : applyEvs ops s' ((o :: t).map Ev.touchMove)
          = applyEvs ops (applyEv ops s' (Ev.touchMove o)) (t.map Ev.touchMove) := rfl
      rw [hcons]
      obtain ⟨ha, hb⟩ := ih (applyEv ops s' (Ev.touchMove o))
      cases o with
      | none => exact ⟨ha, hb⟩
      | some tp => exact ⟨ha, hb⟩
  obtain ⟨hv, hb⟩ := keep ts s
  rw [hfl] at hb
  refine ⟨hv, hb, ?_, ?_, fun mx my => ⟨rfl, rfl, rfl⟩, fun mx my => rfl⟩
  · simp [advectCond, envOf, hv, hb, not_lt.2 hsv]
  · simp [restoreCond, envOf, hv, hb, hsv]

/-- Witness for C10: from the concrete idle state, two touch moves leave the
gates untouched. -/
theorem touch_no_interaction_witness :
    jsAbs stateA.scrollVelocity ≤ 2 / 10 ∧
      stateA.hasRecentInteraction = false ∧
      (applyEvs zeroOps stateA
          ([some (5, 5), none].map Ev.touchMove)).hasRecentInteraction = false :=
  ⟨by norm_num [stateA, jsAbs], rfl,
    (touch_no_interaction zeroOps stateA [some (5, 5), none] 0
      (by norm_num [stateA, jsAbs]) rfl).2.1⟩

/-- Counterexample to C3 as stated: at a concrete idle state displaced one
pixel vertically, the vertical velocity `step` actually produces differs from
the twice-damped composition the claim describes — because the source damps
`vy` a third time when its two acceleration contributions are folded in by
separate damped assignments. -/
theorem integrator_damping_counterexample :
    (step zeroOps envIdle pSpring).vy = -(6094080 / 62500000) ∧
      claimedTwiceDampedVy zeroOps envIdle pSpring = -(6348 / 62500) ∧
      (step zeroOps envIdle pSpring).vy
        ≠ claimedTwiceDampedVy zeroOps envIdle pSpring := by
  refine ⟨?_, ?_, ?_⟩ <;>
    norm_num [step, claimedTwiceDampedVy, clampReflect, ay1, targetY, waveAmp,
      axAy2, advectCond, restoreCond, restoreAccel, kick, jsAbs, jsMax, jsMin,
      DAMPING, MOUSE_INFLUENCE, MOUSE_STRENGTH, zeroOps, envIdle, pSpring]

/-- C3 (amended).  Per particle per step, before the boundary reflection:
`vx` is damped by 0.92 exactly twice — once when `ax` is added, once after
position integration — while `vy` is damped three times — once when the wave
acceleration `ay1` is added, once when the advect/restore acceleration `ay2`
is added, and once after position integration; the pointer-repulsion kick is
added between the last two damping passes on each component, so it is damped
only by the post-integration pass. -/
theorem integrator_damping (ops : MathOps) (env : SimEnv) (p : Particle)
    (hx0 : 0 ≤ xNoClamp ops env p) (hxw : xNoClamp ops env p ≤ env.width)
    (hy0 : 0 ≤ yNoClamp ops env p) (hyh : yNoClamp ops env p ≤ env.height) :
    (step ops env p).vx
        = ((p.vx + (axAy2 ops env p).1) * DAMPING + (kick ops env p).1) * DAMPING ∧
      (step ops env p).vy
        = (((p.vy + ay1 ops env p) * DAMPING + (axAy2 ops env p).2) * DAMPING
            + (kick ops env p).2) * DAMPING ∧
      (step ops env p).x = xNoClamp ops env p ∧
      (step ops env p).y = yNoClamp ops env p := by
  rw [step_eq, clampReflect_id env.width (xNoClamp ops env p) (vxNoClamp ops env p)
      hx0 hxw,
    clampReflect_id env.height (yNoClamp ops env p) (vyNoClamp ops env p) hy0 hyh]
  exact ⟨rfl, rfl, rfl, rfl⟩

/-- Witness for C3 (amended), at the concrete idle spring state (whose
integrated position stays inside the band, so no reflection fires). -/
theorem integrator_damping_witness :
    (0 ≤ xNoClamp zeroOps envIdle pSpring ∧
        xNoClamp zeroOps envIdle pSpring ≤ envIdle.width ∧
        0 ≤ yNoClamp zeroOps envIdle pSpring ∧
        yNoClamp zeroOps envIdle pSpring ≤ envIdle.height) ∧
      (step zeroOps envIdle pSpring).vy
        = (((pSpring.vy + ay1 zeroOps envIdle pSpring) * DAMPING
              + (axAy2 zeroOps envIdle pSpring).2) * DAMPING
            + (kick zeroOps envIdle pSpring).2) * DAMPING := by
  have h1 : 0 ≤ xNoClamp zeroOps envIdle pSpring := by
    norm_num [xNoClamp, axAy2, advectCond, restoreCond, restoreAccel, kick,
      jsAbs, jsMax, DAMPING, MOUSE_INFLUENCE, MOUSE_STRENGTH, zeroOps, envIdle,
      pSpring]
  have h2 : xNoClamp zeroOps envIdle pSpring ≤ envIdle.width := by
    norm_num [xNoClamp, axAy2, advectCond, restoreCond, restoreAccel, kick,
      jsAbs, jsMax, DAMPING, MOUSE_INFLUENCE, MOUSE_STRENGTH, zeroOps, envIdle,
      pSpring]
  have h3 : 0 ≤ yNoClamp zeroOps envIdle pSpring := by
    norm_num [yNoClamp, ay1, targetY, waveAmp, axAy2, advectCond, restoreCond,
      restoreAccel, kick, jsAbs, jsMax, jsMin, DAMPING, MOUSE_INFLUENCE,
      MOUSE_STRENGTH, zeroOps, envIdle, pSpring]
  have h4 : yNoClamp zeroOps envIdle pSpring ≤ envIdle.height := by
    norm_num [yNoClamp, ay1, targetY, waveAmp, axAy2, advectCond, restoreCond,
      restoreAccel, kick, jsAbs, jsMax, jsMin, DAMPING, MOUSE_INFLUENCE,
      MOUSE_STRENGTH, zeroOps, envIdle, pSpring]
  exact ⟨⟨h1, h2, h3, h4⟩,
    (integrator_damping zeroOps envIdle pSpring h1 h2 h3 h4).2.1⟩

/-- The particle count depends only on the band dimensions:
`rows.toNat * cols.toNat` with `cols = ⌈width/4⌉`, `rows = ⌈height/6⌉`. -/
theorem createParticles_length (ops : MathOps) (rnd : ℕ → ℚ) (w h : ℚ) :
    (createParticles ops rnd w h).length
      = (⌈h / CELL_Y⌉ : ℤ).toNat * (⌈w / CELL_X⌉ : ℤ).toNat := by
  simp only [createParticles, List.length_flatMap, Function.comp_def,
    List.length_map, List.length_range, List.map_const', List.sum_replicate,
    smul_eq_mul]

/-- C7.  Layout postcondition: with positive dimensions `createParticles`
yields exactly `⌈width/4⌉ * ⌈height/6⌉` particles, each at its grid point
offset by at most `±0.75` px per axis (for `Math.random` draws in `[0, 1]`)
and anchored where it starts; with a nonpositive dimension it yields the
empty set; and the particle count is identical across two calls with the same
dimensions, whatever random draws each call sees. -/
theorem layout_postcondition (ops opsB : MathOps) (rnd rndB : ℕ → ℚ) (w h : ℚ) :
    (0 < w → 0 < h → (createParticles ops rnd w h).length
        = (⌈w / CELL_X⌉ * ⌈h / CELL_Y⌉).toNat) ∧
      (w ≤ 0 ∨ h ≤ 0 → createParticles ops rnd w h = []) ∧
      ((∀ k, 0 ≤ rnd k ∧ rnd k ≤ 1) → ∀ p ∈ createParticles ops rnd w h,
        ∃ cx ry : ℕ, jsAbs (p.x - cx * CELL_X) ≤ 3 / 4 ∧
          jsAbs (p.y - ry * CELL_Y) ≤ 3 / 4 ∧ p.baseX = p.x ∧ p.baseY = p.y) ∧
      (createParticles ops rnd w h).length
        = (createParticles opsB rndB w h).length := by
  refine ⟨?_, ?_, ?_, ?_⟩
  · intro hw hh
    rw [createParticles_length]
    have hcx : 0 ≤ (⌈w / CELL_X⌉ : ℤ) :=
      le_of_lt (Int.ceil_pos.2 (div_pos hw (by norm_num [CELL_X])))
    have hcy : 0 ≤ (⌈h / CELL_Y⌉ : ℤ) :=
      le_of_lt (Int.ceil_pos.2 (div_pos hh (by norm_num [CELL_Y])))
    have hmul : ((⌈w / CELL_X⌉ : ℤ) * ⌈h / CELL_Y⌉).toNat
        = (⌈w / CELL_X⌉ : ℤ).toNat * (⌈h / CELL_Y⌉ : ℤ).toNat := by
      rw [← Int.toNat_of_nonneg hcx, ← Int.toNat_of_nonneg hcy,
        ← Int.natCast_mul, Int.toNat_natCast, Int.toNat_natCast,
        Int.toNat_natCast]
    rw [hmul, Nat.mul_comm]
  · intro hwh
    rcases hwh with hw | hh
    · have hc : (⌈w / CELL_X⌉ : ℤ) ≤ 0 :=
        Int.ceil_le.2 (by
          rw [Int.cast_zero]
          exact div_nonpos_iff.2 (Or.inr ⟨hw, by norm_num [CELL_X]⟩))
      have : (⌈w / CELL_X⌉ : ℤ).toNat = 0 := by omega
      simp [createParticles, this]
    · have hc : (⌈h / CELL_Y⌉ : ℤ) ≤ 0 :=
        Int.ceil_le.2 (by
          rw [Int.cast_zero]
          exact div_nonpos_iff.2 (Or.inr ⟨hh, by norm_num [CELL_Y]⟩))
      have : (⌈h / CELL_Y⌉ : ℤ).toNat = 0 := by omega
      simp [createParticles, this]
  · intro hr p hp
    simp only [createParticles, List.mem_flatMap, List.mem_map,
      List.mem_range] at hp
    obtain ⟨ry, _, cx, _, rfl⟩ := hp
    refine ⟨cx, ry, ?_, ?_, rfl, rfl⟩
    · obtain ⟨h0, h1⟩ := hr (3 * (ry * (⌈w / CELL_X⌉ : ℤ).toNat + cx))
      simp only [mkParticle, jsAbs, add_sub_cancel_left]
      split_ifs <;> linarith
    · obtain ⟨h0, h1⟩ := hr (3 * (ry * (⌈w / CELL_X⌉ : ℤ).toNat + cx) + 1)
      simp only [mkParticle, jsAbs, add_sub_cancel_left]
      split_ifs <;> linarith
  · rw [createParticles_length, createParticles_length]

/-- Witness for C7, at `width = 8`, `height = 6` with the constant stream
`1/2`: two particles, i.e. `⌈8/4⌉ * ⌈6/6⌉`. -/
theorem layout_postcondition_witness :
    (0 : ℚ) < 8 ∧ (0 : ℚ) < 6 ∧
      (createParticles zeroOps (fun _ => 1 / 2) 8 6).length
        = (⌈(8 : ℚ) / CELL_X⌉ * ⌈(6 : ℚ) / CELL_Y⌉).toNat ∧
      (createParticles zeroOps (fun _ => 1 / 2) 8 6).length = 2 := by
  have h := (layout_postcondition zeroOps zeroOps (fun _ => 1 / 2)
      (fun _ => 1 / 2) 8 6).1 (by norm_num) (by norm_num)
  refine ⟨by norm_num, by norm_num, h, ?_⟩
  rw [h]
  have : (⌈(8 : ℚ) / CELL_X⌉ * ⌈(6 : ℚ) / CELL_Y⌉) = 2 := by
    norm_num [CELL_X, CELL_Y]
  rw [this]
  rfl

/-- C8.  Repulsion direction: when the screen-space distance from particle to
pointer is exactly 10 px (inside the 90 px radius, above the 8 px floor and
with `Math.sqrt` exact on `100`), the velocity delta the pointer branch adds
has strictly positive dot product with the pointer-to-particle vector — it
pushes away, never toward — and the divisor is floored at 8, so the kick is
always well defined (never a division by zero). -/
theorem pointer_repulsion (ops : MathOps) (env : SimEnv) (p : Particle)
    (hd : mouseDistSq env p = 100) (hs : ops.sqrt 100 = 10) :
    0 < (kick ops env p).1 * (p.x - env.mouseX)
        + (kick ops env p).2 * (env.innerHeight - env.height + p.y - env.mouseY) ∧
      (∀ d2 : ℚ, 8 ≤ jsMax 8 (ops.sqrt d2)) := by
  constructor
  · have hd' : (p.x - env.mouseX) * (p.x - env.mouseX)
        + (env.innerHeight - env.height + p.y - env.mouseY)
          * (env.innerHeight - env.height + p.y - env.mouseY) = 100 := hd
    have hk : kick ops env p
        = ((p.x - env.mouseX) / 10 * ((1 - 10 / MOUSE_INFLUENCE) * MOUSE_STRENGTH) * 6,
           (env.innerHeight - env.height + p.y - env.mouseY) / 10
             * ((1 - 10 / MOUSE_INFLUENCE) * MOUSE_STRENGTH) * 6) := by
      simp only [kick, hd']
      rw [if_pos (by norm_num [MOUSE_INFLUENCE]), hs]
      norm_num [jsMax]
    rw [hk]
    have : (p.x - env.mouseX) / 10 * ((1 - 10 / MOUSE_INFLUENCE) * MOUSE_STRENGTH) * 6
          * (p.x - env.mouseX)
        + (env.innerHeight - env.height + p.y - env.mouseY) / 10
            * ((1 - 10 / MOUSE_INFLUENCE) * MOUSE_STRENGTH) * 6
          * (env.innerHeight - env.height + p.y - env.mouseY)
        = ((p.x - env.mouseX) * (p.x - env.mouseX)
            + (env.innerHeight - env.height + p.y - env.mouseY)
              * (env.innerHeight - env.height + p.y - env.mouseY))
          * ((1 - 10 / MOUSE_INFLUENCE) * MOUSE_STRENGTH * 6 / 10) := by
      ring
    rw [this, hd']
    norm_num [MOUSE_INFLUENCE, MOUSE_STRENGTH]
  · intro d2
    simp only [jsMax]
    split_ifs with h
    · exact h
    · exact le_refl 8

/-- Witness for C8: pointer at the screen origin, particle at screen offset
`(6, 8)` — distance exactly 10 — with an exact `sqrt` on `100`. -/
theorem pointer_repulsion_witness :
    mouseDistSq envRepel pRepel = 100 ∧ sqrtOps.sqrt 100 = 10 ∧
      0 < (kick sqrtOps envRepel pRepel).1 * (pRepel.x - envRepel.mouseX)
        + (kick sqrtOps envRepel pRepel).2
          * (envRepel.innerHeight - envRepel.height + pRepel.y - envRepel.mouseY) :=
  ⟨by norm_num [mouseDistSq, envRepel, pRepel],
    by norm_num [sqrtOps],
    (pointer_repulsion sqrtOps envRepel pRepel
        (by norm_num [mouseDistSq, envRepel, pRepel])
        (by norm_num [sqrtOps])).1⟩

/-- C2.  The construction the spec describes — central-difference gradient of
the value noise rotated 90° (`specCurl`) — has identically zero
finite-difference divergence (step `eps`), for every host `sin`, at every
point and time: that part of the claim is sound.  But the source's `curl`
swaps its two difference quotients (the variable named `dx` holds the
y-difference and vice versa), so `{x: dy, y: -dx}` yields the *reflected*
gradient `(∂N/∂x, -∂N/∂y)`, whose divergence is `Nxx - Nyy ≠ 0`: at the
sample point `(52, 33)`, `t = 0.3` (with the identity stand-in for `sin` in
the lattice hash) the finite-difference divergence of the code's field is
`1368747/625000000 ≈ 0.00219`, beyond the claim's `1e-3` tolerance. -/
theorem sampleflow_divergence :
    (∀ (ops : MathOps) (x y tm : ℚ),
        fdDivergence (fun a b => specCurl ops a b tm) eps x y = 0) ∧
      jsAbs (fdDivergence (fun a b => curl hashOps a b (3 / 10)) eps 52 33)
        = 1368747 / 625000000 ∧
      (1 : ℚ) / 1000
        < jsAbs (fdDivergence (fun a b => curl hashOps a b (3 / 10)) eps 52 33) := by
  refine ⟨?_, ?_, ?_⟩
  · intro ops x y tm
    simp only [fdDivergence, specCurl]
    ring
  · norm_num [fdDivergence, curl, valueNoise, rand2, fract, smoothstep, lerp,
      hashOps, eps, scale, jsAbs, jsMax, jsMin]
  · norm_num [fdDivergence, curl, valueNoise, rand2, fract, smoothstep, lerp,
      hashOps, eps, scale, jsAbs, jsMax, jsMin]

end WaterDots
